import Mathlib

/-!
Shallow embedding of JUCE's AudioProcessorPlayer
(src/modules/juce_audio_utils/players/juce_AudioProcessorPlayer.cpp).

Processing units (AudioProcessor pointers) are identified by natural
numbers; the empty slot is Option.none.  Sample values are rationals
(the float arithmetic here is only memcpy / zeromem, no rounding).
Calls made by the player on a processing unit are recorded as a trace
of events; lifecycle events (setPlayConfigDetails, prepareToPlay,
releaseResources) carry a flag telling whether the player-level lock
was held when the call was issued, mirroring the ScopedLock scopes in
the source.
-/

namespace JucePlayer

/-- Events emitted by the player towards a processing unit.  The Bool on
the lifecycle events records whether the player lock was held at the
call site. -/
inductive PEvent where
  | setPlayConfig (p : Nat) (nin nout : Int) (sr : ℚ) (bs : Int) (locked : Bool)
  | prepare (p : Nat) (sr : ℚ) (bs : Int) (locked : Bool)
  | release (p : Nat) (locked : Bool)
  | callbackLock (p : Nat)
  | suspendQuery (p : Nat)
  | processBlock (p : Nat) (numChans numSamples : Nat)
deriving DecidableEq, Repr

/-- A slot of the unified channel array built by audioDeviceIOCallback:
either one of the real output buffers, or a channel of the temp
(remap) buffer.  The two constructors model the fact that the surplus
channels live in scratch memory distinct from the output buffers. -/
inductive ChanRef where
  | out (i : Nat)
  | temp (j : Nat)
deriving DecidableEq, Repr

/-- Fields of AudioProcessorPlayer.  tempChans/tempSamples are the
logical dimensions of tempBuffer; channelsLen is the number of slots
allocated for the channels pointer array (HeapBlock). -/
structure PlayerState where
  processor : Option Nat
  sampleRate : ℚ
  blockSize : Int
  isPrepared : Bool
  numInputChans : Int
  numOutputChans : Int
  tempChans : Nat
  tempSamples : Nat
  channelsLen : Nat
deriving DecidableEq, Repr

/-- The constructor AudioProcessorPlayer(): null processor, zero
configuration, tempBuffer (1, 1), channels array not yet allocated. -/
def initialState : PlayerState :=
  { processor := none
    sampleRate := 0
    blockSize := 0
    isPrepared := false
    numInputChans := 0
    numOutputChans := 0
    tempChans := 1
    tempSamples := 1
    channelsLen := 0 }

/-- AudioProcessorPlayer::setProcessor.  ambientLocked tells whether the
caller already holds the player lock (true when called from inside
prepareToPlay, false for an external call): the prepare and release
calls made here sit outside setProcessor's own ScopedLock but inside
any lock the caller holds. -/
def setProcessorL (ambientLocked : Bool) (s : PlayerState) (processorToPlay : Option Nat) :
    PlayerState × List PEvent :=
  if s.processor = processorToPlay then (s, [])
  else
    let prepEvs : List PEvent :=
      match processorToPlay with
      | some p =>
          if 0 < s.sampleRate ∧ 0 < s.blockSize then
            [PEvent.setPlayConfig p s.numInputChans s.numOutputChans s.sampleRate s.blockSize
               ambientLocked,
             PEvent.prepare p s.sampleRate s.blockSize ambientLocked]
          else []
      | none => []
    let oldOne : Option Nat := if s.isPrepared then s.processor else none
    let s' := { s with processor := processorToPlay, isPrepared := true }
    let relEvs : List PEvent :=
      match oldOne with
      | some q => [PEvent.release q ambientLocked]
      | none => []
    (s', prepEvs ++ relEvs)

/-- setProcessor called from outside the player (no lock held around). -/
def setProcessor (s : PlayerState) (processorToPlay : Option Nat) : PlayerState × List PEvent :=
  setProcessorL false s processorToPlay

/-- AudioProcessorPlayer::prepareToPlay (the configure hook).  The
ScopedLock spans the whole body, so every unit call made here carries
locked = true. -/
def prepareToPlay (s : PlayerState) (newSampleRate : ℚ) (newBlockSize numChansIn numChansOut : Int) :
    PlayerState × List PEvent :=
  let s1 := { s with
    sampleRate := newSampleRate
    blockSize := newBlockSize
    numInputChans := numChansIn
    numOutputChans := numChansOut
    channelsLen := (max numChansIn numChansOut + 2).toNat }
  match s1.processor with
  | none => (s1, [])
  | some p =>
      let evs0 : List PEvent := if s1.isPrepared then [PEvent.release p true] else []
      let r1 := setProcessorL true s1 none
      let r2 := setProcessorL true r1.1 (some p)
      (r2.1, evs0 ++ r1.2 ++ r2.2)

/-- AudioProcessorPlayer::audioDeviceStopped.  The ScopedLock spans the
whole body, so the release call carries locked = true. -/
def audioDeviceStopped (s : PlayerState) : PlayerState × List PEvent :=
  let evs : List PEvent :=
    match s.processor with
    | some p => if s.isPrepared then [PEvent.release p true] else []
    | none => []
  ({ s with
      sampleRate := 0
      blockSize := 0
      isPrepared := false
      tempChans := 1
      tempSamples := 1 }, evs)

/-- memcpy of numSamples floats from src over the front of dst. -/
def overwrite (dst src : List ℚ) (numSamples : Nat) : List ℚ :=
  src.take numSamples ++ dst.drop numSamples

/-- zeromem of numSamples floats over the front of dst. -/
def zeroFill (dst : List ℚ) (numSamples : Nat) : List ℚ :=
  List.replicate numSamples 0 ++ dst.drop numSamples

/-- The channel-remap step of audioDeviceIOCallback (the two loops).
Returns the new contents of the output buffers, the new contents of
the temp buffer, and the unified channel array (what the channels
pointer array references, in order).  numIn and numOut are the lengths
of the argument lists.  In the numIn > numOut branch the temp buffer
is resized to exactly numIn - numOut channels of numSamples samples
without keeping existing content, then each temp channel is fully
overwritten from the corresponding surplus input. -/
def remapStep (inputs outputs temp : List (List ℚ)) (numSamples : Nat) :
    List (List ℚ) × List (List ℚ) × List ChanRef :=
  if outputs.length < inputs.length then
    ((List.range outputs.length).map fun i =>
        overwrite (outputs.getD i []) (inputs.getD i []) numSamples,
     (List.range (inputs.length - outputs.length)).map fun j =>
        (inputs.getD (outputs.length + j) []).take numSamples,
     (List.range outputs.length).map ChanRef.out ++
       (List.range (inputs.length - outputs.length)).map ChanRef.temp)
  else
    ((List.range outputs.length).map fun i =>
        if i < inputs.length then overwrite (outputs.getD i []) (inputs.getD i []) numSamples
        else zeroFill (outputs.getD i []) numSamples,
     temp,
     (List.range outputs.length).map ChanRef.out)

/-- In-place writes performed by the unit's processBlock: channel k of
the unified array receives the unit's k-th output channel.  unitOut is
an oracle for what the unit writes. -/
def writeBack (channels : List ChanRef) (unitOut : List (List ℚ))
    (outs temp : List (List ℚ)) (numSamples : Nat) :
    List (List ℚ) × List (List ℚ) :=
  (channels.zip unitOut).foldl
    (fun acc rc =>
      match rc.1 with
      | ChanRef.out i => (acc.1.set i (overwrite (acc.1.getD i []) rc.2 numSamples), acc.2)
      | ChanRef.temp j => (acc.1, acc.2.set j (overwrite (acc.2.getD j []) rc.2 numSamples)))
    (outs, temp)

/-- The jassert at the top of audioDeviceIOCallback: the configuration
the callback asserts to have been set by audioDeviceAboutToStart. -/
def callbackReady (s : PlayerState) : Prop :=
  0 < s.sampleRate ∧ 0 < s.blockSize

instance (s : PlayerState) : Decidable (callbackReady s) := by
  unfold callbackReady; infer_instance

/-- AudioProcessorPlayer::audioDeviceIOCallback.  suspended is the
answer the installed unit gives to isSuspended(); unitOut is the data
processBlock writes into the channels handed to it.  Returns the new
player state, the final contents of the output buffers, the final
contents of the temp buffer, and the trace of unit calls.  The jassert
on sampleRate/blockSize is a no-op in release builds and does not gate
the body. -/
def audioDeviceIOCallback (s : PlayerState) (inputs outputs temp : List (List ℚ))
    (numSamples : Nat) (suspended : Bool) (unitOut : List (List ℚ)) :
    PlayerState × List (List ℚ) × List (List ℚ) × List PEvent :=
  let numIn := inputs.length
  let numOut := outputs.length
  let r := remapStep inputs outputs temp numSamples
  let s' := if numOut < numIn then
      { s with tempChans := numIn - numOut, tempSamples := numSamples }
    else s
  match s'.processor with
  | none => (s', r.1, r.2.1, [])
  | some p =>
      if suspended then
        (s', r.1.map (fun ch => zeroFill ch numSamples), r.2.1,
         [PEvent.callbackLock p, PEvent.suspendQuery p])
      else
        let wb := writeBack r.2.2 unitOut r.1 r.2.1 numSamples
        (s', wb.1, wb.2,
         [PEvent.callbackLock p, PEvent.suspendQuery p,
          PEvent.processBlock p r.2.2.length numSamples])

/-- Operations a client can perform on the player.  The callback op
carries the device-provided buffers and the unit-behaviour oracles. -/
inductive Op where
  | install (processorToPlay : Option Nat)
  | configure (sr : ℚ) (bs nin nout : Int)
  | stop
  | callback (inputs outputs temp : List (List ℚ)) (numSamples : Nat)
      (suspended : Bool) (unitOut : List (List ℚ))

/-- One operation applied to a player state, with the trace of unit
calls it emits. -/
def stepOp (s : PlayerState) : Op → PlayerState × List PEvent
  | Op.install q => setProcessor s q
  | Op.configure sr bs nin nout => prepareToPlay s sr bs nin nout
  | Op.stop => audioDeviceStopped s
  | Op.callback inputs outputs temp n susp u =>
      let r := audioDeviceIOCallback s inputs outputs temp n susp u
      (r.1, r.2.2.2)

/-- Run a list of operations from the initial state.  The HEAD of the
list is the most recent operation (operations are applied from the
tail forward); the returned trace is in chronological order. -/
def runOps : List Op → PlayerState × List PEvent
  | [] => (initialState, [])
  | op :: rest =>
      let r := runOps rest
      let r2 := stepOp r.1 op
      (r2.1, r.2 ++ r2.2)

/-- Fold step counting prepare calls to unit p, resetting at each
release of p. -/
def prepStep (p : Nat) (k : Nat) : PEvent → Nat
  | PEvent.release q _ => if q = p then 0 else k
  | PEvent.prepare q _ _ _ => if q = p then k + 1 else k
  | _ => k

/-- Number of prepare calls unit p has received since its most recent
releaseResources call (or since the start of the trace if it was never
released). -/
def prepSinceRelease (p : Nat) (tr : List PEvent) : Nat :=
  tr.foldl (prepStep p) 0

/-- Number of releaseResources calls to unit p in a trace. -/
def releaseCount (p : Nat) (tr : List PEvent) : Nat :=
  (tr.filter fun e =>
    match e with
    | PEvent.release q _ => q == p
    | _ => false).length

/-- Number of prepareToPlay calls to unit p in a trace. -/
def prepareCount (p : Nat) (tr : List PEvent) : Nat :=
  (tr.filter fun e =>
    match e with
    | PEvent.prepare q _ _ _ => q == p
    | _ => false).length

/-- Whether the player lock was held when an event was issued.  The
three callback-section events always happen under the lock in the
source. -/
def lockedFlag : PEvent → Bool
  | PEvent.setPlayConfig _ _ _ _ _ l => l
  | PEvent.prepare _ _ _ l => l
  | PEvent.release _ l => l
  | PEvent.callbackLock _ => true
  | PEvent.suspendQuery _ => true
  | PEvent.processBlock _ _ _ => true

/-- Ghost count: the value prepSinceRelease is expected to have for
unit q at a state, the inductive invariant of the trace semantics: one
when q is installed, marked prepared and the player is configured,
zero otherwise. -/
def goodCount (s : PlayerState) (q : Nat) : Nat :=
  if s.processor = some q ∧ s.isPrepared = true ∧ 0 < s.sampleRate ∧ 0 < s.blockSize
  then 1 else 0

/-- The trace invariant relating a player state to the trace of unit
calls that produced it. -/
def Inv (s : PlayerState) (tr : List PEvent) : Prop :=
  ∀ q, prepSinceRelease q tr = goodCount s q

/-- A reachable player: configure (sample rate 1, block size 1, one
channel each way), then install unit 1.  The head of the runOps list
is the most recent operation. -/
def configuredPlayer : PlayerState :=
  (runOps [Op.install (some 1), Op.configure 1 1 1 1]).1

/-- The configured player after audioDeviceStopped. -/
def stoppedPlayer : PlayerState :=
  (audioDeviceStopped configuredPlayer).1

/-! Helper lemmas. -/

theorem overwrite_exact (dst src : List ℚ) (n : Nat) (hs : src.length = n)
    (hd : dst.length ≤ n) : overwrite dst src n = src := by
  unfold overwrite
  rw [List.drop_eq_nil_of_le hd, ← hs, List.take_length, List.append_nil]

theorem zeroFill_exact (dst : List ℚ) (n : Nat) (hd : dst.length ≤ n) :
    zeroFill dst n = List.replicate n 0 := by
  unfold zeroFill
  rw [List.drop_eq_nil_of_le hd, List.append_nil]

theorem getD_map_range {α : Type} (f : Nat → α) (k i : Nat) (h : i < k) (d : α) :
    ((List.range k).map f).getD i d = f i := by
  rw [List.getD_eq_getElem _ d (by simpa using h)]
  simp

theorem getD_mem_of_lt {α : Type} (l : List α) (i : Nat) (d : α) (h : i < l.length) :
    l.getD i d ∈ l := by
  rw [List.getD_eq_getElem _ _ h]
  exact List.getElem_mem h

theorem getD_map_lt {α : Type} (f : α → α) (l : List α) (i : Nat) (d : α)
    (h : i < l.length) : (l.map f).getD i d = f (l.getD i d) := by
  rw [List.getD_eq_getElem _ _ (by simpa using h), List.getD_eq_getElem _ _ h,
    List.getElem_map]

theorem forall_lt_iff_le (L A : Nat) : (∀ i, i < L → i < A) ↔ L ≤ A := by
  constructor
  · intro h
    by_cases hL : L = 0
    · omega
    · have := h (L - 1) (by omega)
      omega
  · intro h i hi
    omega

theorem foldl_append_psr (p : Nat) (tr evs : List PEvent) :
    prepSinceRelease p (tr ++ evs) = evs.foldl (prepStep p) (prepSinceRelease p tr) := by
  unfold prepSinceRelease
  exact List.foldl_append _ _ _ _

/-- Behaviour of prepareToPlay when no unit is installed: only the
configuration fields change, no unit calls happen. -/
theorem prepareToPlay_none (s : PlayerState) (sr : ℚ) (bs nin nout : Int)
    (h : s.processor = none) :
    prepareToPlay s sr bs nin nout =
      ({ s with
          sampleRate := sr
          blockSize := bs
          numInputChans := nin
          numOutputChans := nout
          channelsLen := (max nin nout + 2).toNat }, []) := by
  simp [prepareToPlay, h]

/-- Behaviour of prepareToPlay when a unit is installed: the unit is
released (twice when it was marked prepared: once directly, once by
the setProcessor (nullptr) step that still sees isPrepared == true),
then reinstalled, receiving setPlayConfigDetails and prepareToPlay
exactly when the new sample rate and block size are positive.  All
these calls happen with the player lock held. -/
theorem prepareToPlay_some (s : PlayerState) (p : Nat) (sr : ℚ) (bs nin nout : Int)
    (h : s.processor = some p) :
    prepareToPlay s sr bs nin nout =
      ({ s with
          processor := some p
          sampleRate := sr
          blockSize := bs
          isPrepared := true
          numInputChans := nin
          numOutputChans := nout
          channelsLen := (max nin nout + 2).toNat },
       (if s.isPrepared = true then [PEvent.release p true, PEvent.release p true] else []) ++
       (if 0 < sr ∧ 0 < bs then
          [PEvent.setPlayConfig p nin nout sr bs true, PEvent.prepare p sr bs true]
        else [])) := by
  by_cases hp : s.isPrepared = true <;>
    by_cases hc : 0 < sr ∧ 0 < bs <;>
      simp [prepareToPlay, setProcessorL, h, hp, hc]

/-- Flags of every unit call made by setProcessorL equal the ambient
lock state: the prepare happens before its ScopedLock, the release
after it. -/
theorem setProcessorL_flags (l : Bool) (s : PlayerState) (q : Option Nat) :
    ∀ e ∈ (setProcessorL l s q).2, lockedFlag e = l := by
  intro e he
  unfold setProcessorL at he
  split at he
  · simp at he
  · simp only [List.mem_append] at he
    rcases he with he | he
    · split at he
      · split at he
        · fin_cases he <;> rfl
        · simp at he
      · simp at he
    · split at he
      · fin_cases he <;> rfl
      · simp at he

/-! Claim theorems. -/

/-- C1, counterexample: at a reachable state with unit 1 installed and
marked prepared, a configure (prepareToPlay) call issues TWO
releaseResources calls to the unit, not exactly one: one directly,
one from the setProcessor (nullptr) step, which still sees
isPrepared == true. -/
theorem configure_not_single_release :
    configuredPlayer.processor = some 1 ∧ configuredPlayer.isPrepared = true ∧
    releaseCount 1 (prepareToPlay configuredPlayer 2 2 1 1).2 = 2 := by decide

/-- C1, amended: a configure (prepareToPlay) call made while a unit is
installed and marked prepared, with positive new sample rate and block
size, makes the installed unit receive exactly two releaseResources
calls followed by exactly one setPlayConfigDetails and one prepare
call under the new configuration, and the same unit remains installed
and marked prepared afterwards. -/
theorem configure_reinstall_trace (s : PlayerState) (p : Nat) (sr : ℚ)
    (bs nin nout : Int) (hp : s.processor = some p) (hprep : s.isPrepared = true)
    (hsr : 0 < sr) (hbs : 0 < bs) :
    (prepareToPlay s sr bs nin nout).2 =
      [PEvent.release p true, PEvent.release p true,
       PEvent.setPlayConfig p nin nout sr bs true, PEvent.prepare p sr bs true] ∧
    releaseCount p (prepareToPlay s sr bs nin nout).2 = 2 ∧
    prepareCount p (prepareToPlay s sr bs nin nout).2 = 1 ∧
    (prepareToPlay s sr bs nin nout).1.processor = some p ∧
    (prepareToPlay s sr bs nin nout).1.isPrepared = true ∧
    (prepareToPlay s sr bs nin nout).1.sampleRate = sr ∧
    (prepareToPlay s sr bs nin nout).1.blockSize = bs := by
  rw [prepareToPlay_some s p sr bs nin nout hp]
  simp [hprep, hsr, hbs, releaseCount, prepareCount]

/-- Witness for configure_reinstall_trace at a concrete reachable
state. -/
theorem configure_reinstall_trace_witness :
    (prepareToPlay configuredPlayer 2 2 1 1).2 =
      [PEvent.release 1 true, PEvent.release 1 true,
       PEvent.setPlayConfig 1 1 1 2 2 true, PEvent.prepare 1 2 2 true] :=
  (configure_reinstall_trace configuredPlayer 1 2 2 1 1 (by decide) (by decide)
    (by decide) (by decide)).1

/-- C8: audioDeviceStopped resets sampleRate, blockSize and the
prepared flag, shrinks the temp buffer to (1, 1), releases the
installed unit exactly when it was marked prepared, and is idempotent:
a second call emits no unit call and leaves the state unchanged. -/
theorem stopped_resets_and_idempotent (s : PlayerState) :
    (audioDeviceStopped s).1.sampleRate = 0 ∧
    (audioDeviceStopped s).1.blockSize = 0 ∧
    (audioDeviceStopped s).1.isPrepared = false ∧
    (audioDeviceStopped s).1.tempChans = 1 ∧
    (audioDeviceStopped s).1.tempSamples = 1 ∧
    (∀ p, s.processor = some p → s.isPrepared = true →
      (audioDeviceStopped s).2 = [PEvent.release p true]) ∧
    (s.isPrepared = false → (audioDeviceStopped s).2 = []) ∧
    (s.processor = none → (audioDeviceStopped s).2 = []) ∧
    audioDeviceStopped (audioDeviceStopped s).1 = ((audioDeviceStopped s).1, []) := by
  obtain ⟨proc, sr, bs, prep, nin, nout, tc, ts, cl⟩ := s
  cases proc <;> cases prep <;> simp [audioDeviceStopped]

/-- Witness for stopped_resets_and_idempotent at a concrete prepared
state. -/
theorem stopped_resets_and_idempotent_witness :
    (audioDeviceStopped configuredPlayer).2 = [PEvent.release 1 true] ∧
    audioDeviceStopped (audioDeviceStopped configuredPlayer).1 =
      ((audioDeviceStopped configuredPlayer).1, []) :=
  ⟨(stopped_resets_and_idempotent configuredPlayer).2.2.2.2.2.1 1 (by decide) (by decide),
   (stopped_resets_and_idempotent configuredPlayer).2.2.2.2.2.2.2.2⟩

/-- C9, counterexample: both audioDeviceStopped and prepareToPlay issue
releaseResources calls while holding the player lock (their ScopedLock
spans the whole function body), refuting the claim that the lock is
never held across a prepare or releaseResources call. -/
theorem lock_across_release_refuted :
    (audioDeviceStopped configuredPlayer).2 = [PEvent.release 1 true] ∧
    lockedFlag (PEvent.release 1 true) = true ∧
    PEvent.release 1 true ∈ (prepareToPlay configuredPlayer 2 2 1 1).2 ∧
    PEvent.prepare 1 2 2 true ∈ (prepareToPlay configuredPlayer 2 2 1 1).2 := by decide

/-- C9, amended: setProcessor performs prepare and releaseResources
outside the player lock, but prepareToPlay and audioDeviceStopped
perform every unit lifecycle call (release, setPlayConfigDetails,
prepare) with the player lock held. -/
theorem lock_discipline (s : PlayerState) (q : Option Nat) (sr : ℚ) (bs nin nout : Int) :
    (∀ e ∈ (setProcessor s q).2, lockedFlag e = false) ∧
    (∀ e ∈ (audioDeviceStopped s).2, lockedFlag e = true) ∧
    (∀ e ∈ (prepareToPlay s sr bs nin nout).2, lockedFlag e = true) := by
  refine ⟨fun e he => setProcessorL_flags false s q e he, ?_, ?_⟩
  · intro e he
    obtain ⟨proc, srF, bsF, prepF, ninF, noutF, tcF, tsF, clF⟩ := s
    cases proc <;> cases prepF <;> simp [audioDeviceStopped] at he <;>
      simp [he, lockedFlag]
  · intro e he
    rcases hO : s.processor with _ | p
    · rw [prepareToPlay_none s sr bs nin nout hO] at he
      simp at he
    · rw [prepareToPlay_some s p sr bs nin nout hO] at he
      simp only [List.mem_append] at he
      rcases he with he | he <;> split at he
      · fin_cases he <;> rfl
      · simp at he
      · fin_cases he <;> rfl
      · simp at he

/-- Witness for lock_discipline: at a concrete reachable state, the
release emitted by audioDeviceStopped carries the lock-held flag. -/
theorem lock_discipline_witness :
    lockedFlag (PEvent.release 1 true) = true :=
  (lock_discipline configuredPlayer none 1 1 1 1).2.1 (PEvent.release 1 true) (by decide)

/-- C10: prepareToPlay allocates the channels pointer array with
max(configuredIn, configuredOut) + 2 slots, the callback writes slots
0 .. max(numIn, numOut) - 1 of it, and all its writes are in bounds
exactly when max(numIn, numOut) is at most that capacity. -/
theorem channels_capacity_bounds (s : PlayerState) (sr : ℚ) (bs cfgIn cfgOut : Int)
    (hIn : 0 ≤ cfgIn) (hOut : 0 ≤ cfgOut)
    (inputs outputs temp : List (List ℚ)) (n : Nat) :
    (prepareToPlay s sr bs cfgIn cfgOut).1.channelsLen = (max cfgIn cfgOut).toNat + 2 ∧
    (remapStep inputs outputs temp n).2.2.length = max inputs.length outputs.length ∧
    ((∀ i, i < (remapStep inputs outputs temp n).2.2.length →
        i < (prepareToPlay s sr bs cfgIn cfgOut).1.channelsLen) ↔
      max inputs.length outputs.length ≤ (prepareToPlay s sr bs cfgIn cfgOut).1.channelsLen) := by
  have h0 : (0:Int) ≤ max cfgIn cfgOut := le_trans hIn (le_max_left _ _)
  have hlen : (prepareToPlay s sr bs cfgIn cfgOut).1.channelsLen =
      (max cfgIn cfgOut).toNat + 2 := by
    rcases hO : s.processor with _ | p
    · rw [prepareToPlay_none s sr bs cfgIn cfgOut hO]
      simp only
      generalize hm : max cfgIn cfgOut = m at h0 ⊢
      omega
    · rw [prepareToPlay_some s p sr bs cfgIn cfgOut hO]
      simp only
      generalize hm : max cfgIn cfgOut = m at h0 ⊢
      omega
  have hch : (remapStep inputs outputs temp n).2.2.length =
      max inputs.length outputs.length := by
    unfold remapStep
    by_cases hio : outputs.length < inputs.length <;> simp [hio] <;> omega
  refine ⟨hlen, hch, ?_⟩
  rw [hch]
  exact forall_lt_iff_le _ _

/-- Witness for channels_capacity_bounds on concrete data: capacity 4
from configure(1, 1, 2, 2); a callback with three inputs and one
output writes three slots. -/
theorem channels_capacity_bounds_witness :
    (prepareToPlay initialState 1 1 2 2).1.channelsLen = (max (2:Int) 2).toNat + 2 ∧
    (remapStep [[(0:ℚ)], [0], [0]] [[0]] [] 1).2.2.length =
      max ([[(0:ℚ)], [0], [0]] : List (List ℚ)).length ([[(0:ℚ)]] : List (List ℚ)).length :=
  ⟨(channels_capacity_bounds initialState 1 1 2 2 (by decide) (by decide)
      [[(0:ℚ)], [0], [0]] [[0]] [] 1).1,
   (channels_capacity_bounds initialState 1 1 2 2 (by decide) (by decide)
      [[(0:ℚ)], [0], [0]] [[0]] [] 1).2.1⟩

/-- The remap step always produces one written channel per real output
buffer. -/
theorem remap_out_len (inputs outputs temp : List (List ℚ)) (n : Nat) :
    (remapStep inputs outputs temp n).1.length = outputs.length := by
  unfold remapStep
  by_cases hio : outputs.length < inputs.length <;> simp [hio]

/-- Contents of output buffer i after the remap step: the i-th input
channel when it exists, silence otherwise. -/
theorem remap_out_getD (inputs outputs temp : List (List ℚ)) (n : Nat)
    (hin : ∀ ch ∈ inputs, ch.length = n) (hout : ∀ ch ∈ outputs, ch.length = n)
    (i : Nat) (hi : i < outputs.length) :
    (remapStep inputs outputs temp n).1.getD i [] =
      if i < inputs.length then inputs.getD i [] else List.replicate n 0 := by
  have houti : (outputs.getD i []).length = n := hout _ (getD_mem_of_lt _ _ _ hi)
  unfold remapStep
  by_cases hio : outputs.length < inputs.length
  · rw [if_pos hio]
    have hii : i < inputs.length := lt_trans hi hio
    rw [getD_map_range _ _ _ hi, if_pos hii]
    exact overwrite_exact _ _ _ (hin _ (getD_mem_of_lt _ _ _ hii)) (le_of_eq houti)
  · rw [if_neg hio]
    rw [getD_map_range _ _ _ hi]
    by_cases hii : i < inputs.length
    · rw [if_pos hii, if_pos hii]
      exact overwrite_exact _ _ _ (hin _ (getD_mem_of_lt _ _ _ hii)) (le_of_eq houti)
    · rw [if_neg hii, if_neg hii]
      exact zeroFill_exact _ _ (le_of_eq houti)

/-- Every channel written by the remap step holds exactly numSamples
samples. -/
theorem remap_out_getD_length (inputs outputs temp : List (List ℚ)) (n : Nat)
    (hin : ∀ ch ∈ inputs, ch.length = n) (hout : ∀ ch ∈ outputs, ch.length = n)
    (i : Nat) (hi : i < outputs.length) :
    ((remapStep inputs outputs temp n).1.getD i []).length = n := by
  rw [remap_out_getD inputs outputs temp n hin hout i hi]
  by_cases hii : i < inputs.length
  · rw [if_pos hii]
    exact hin _ (getD_mem_of_lt _ _ _ hii)
  · rw [if_neg hii]
    exact List.length_replicate _ _

/-- Shape of audioDeviceIOCallback when a unit is installed and
suspended: every real output buffer is zeroed, the temp buffer is left
as the remap step produced it, and no processBlock call happens. -/
theorem callback_some_suspended (s : PlayerState) (p : Nat)
    (inputs outputs temp : List (List ℚ)) (n : Nat) (u : List (List ℚ))
    (hp : s.processor = some p) :
    audioDeviceIOCallback s inputs outputs temp n true u =
      ((if outputs.length < inputs.length then
          { s with tempChans := inputs.length - outputs.length, tempSamples := n }
        else s),
       (remapStep inputs outputs temp n).1.map (fun ch => zeroFill ch n),
       (remapStep inputs outputs temp n).2.1,
       [PEvent.callbackLock p, PEvent.suspendQuery p]) := by
  by_cases hio : outputs.length < inputs.length <;> simp [audioDeviceIOCallback, hio, hp]

/-- C3: when numIn > numOut, the first numOut output buffers receive
direct copies of the first numOut inputs, the unified channel array
has exactly numIn entries, laid out as the numOut output buffers
followed by numIn - numOut remap-scratch channels (references distinct
from any output buffer), the scratch channels hold copies of the
remaining inputs, and processBlock receives numIn channels. -/
theorem callback_surplus_inputs (s : PlayerState) (p : Nat)
    (inputs outputs temp : List (List ℚ)) (n : Nat) (u : List (List ℚ))
    (hio : outputs.length < inputs.length)
    (hin : ∀ ch ∈ inputs, ch.length = n) (hout : ∀ ch ∈ outputs, ch.length = n)
    (hp : s.processor = some p) :
    (remapStep inputs outputs temp n).1.length = outputs.length ∧
    (∀ i, i < outputs.length →
      (remapStep inputs outputs temp n).1.getD i [] = inputs.getD i []) ∧
    (remapStep inputs outputs temp n).2.2 =
      (List.range outputs.length).map ChanRef.out ++
        (List.range (inputs.length - outputs.length)).map ChanRef.temp ∧
    (remapStep inputs outputs temp n).2.2.length = inputs.length ∧
    (remapStep inputs outputs temp n).2.1.length = inputs.length - outputs.length ∧
    (∀ j, j < inputs.length - outputs.length →
      (remapStep inputs outputs temp n).2.1.getD j [] =
        inputs.getD (outputs.length + j) []) ∧
    (audioDeviceIOCallback s inputs outputs temp n false u).2.2.2 =
      [PEvent.callbackLock p, PEvent.suspendQuery p,
       PEvent.processBlock p inputs.length n] := by
  have hch : (remapStep inputs outputs temp n).2.2.length = inputs.length := by
    simp only [remapStep, if_pos hio]
    simp
    omega
  refine ⟨remap_out_len inputs outputs temp n, ?_, ?_, hch, ?_, ?_, ?_⟩
  · intro i hi
    rw [remap_out_getD inputs outputs temp n hin hout i hi, if_pos (lt_trans hi hio)]
  · simp [remapStep, hio]
  · simp [remapStep, hio]
  · intro j hj
    simp only [remapStep, if_pos hio]
    rw [getD_map_range _ _ _ hj]
    have hmem : inputs.getD (outputs.length + j) [] ∈ inputs :=
      getD_mem_of_lt _ _ _ (by omega)
    rw [← hin _ hmem, List.take_length]
  · simp [audioDeviceIOCallback, hio, hp, hch]

/-- Witness for callback_surplus_inputs on concrete data: two inputs,
one output, unit 1 installed. -/
theorem callback_surplus_inputs_witness :
    (remapStep [[(1:ℚ)], [2]] [[5]] [] 1).1.length = 1 ∧
    (remapStep [[(1:ℚ)], [2]] [[5]] [] 1).2.1.getD 0 [] = [(2:ℚ)] ∧
    (audioDeviceIOCallback configuredPlayer [[(1:ℚ)], [2]] [[5]] [] 1 false [[0], [0]]).2.2.2 =
      [PEvent.callbackLock 1, PEvent.suspendQuery 1, PEvent.processBlock 1 2 1] := by
  have h := callback_surplus_inputs configuredPlayer 1 [[(1:ℚ)], [2]] [[5]] [] 1 [[0], [0]]
    (by decide) (by decide) (by decide) (by decide)
  exact ⟨h.1, h.2.2.2.2.2.1 0 (by decide), h.2.2.2.2.2.2⟩

/-- C4: when numOut >= numIn, after the remap step the first numIn
output buffers equal the corresponding inputs sample for sample, the
remaining numOut - numIn output buffers are all zero, the temp buffer
is untouched, and processBlock receives numOut channels. -/
theorem callback_enough_outputs (s : PlayerState) (p : Nat)
    (inputs outputs temp : List (List ℚ)) (n : Nat) (u : List (List ℚ))
    (hio : inputs.length ≤ outputs.length)
    (hin : ∀ ch ∈ inputs, ch.length = n) (hout : ∀ ch ∈ outputs, ch.length = n)
    (hp : s.processor = some p) :
    (remapStep inputs outputs temp n).1.length = outputs.length ∧
    (∀ i, i < inputs.length →
      (remapStep inputs outputs temp n).1.getD i [] = inputs.getD i []) ∧
    (∀ i, inputs.length ≤ i → i < outputs.length →
      (remapStep inputs outputs temp n).1.getD i [] = List.replicate n 0) ∧
    (remapStep inputs outputs temp n).2.1 = temp ∧
    (remapStep inputs outputs temp n).2.2.length = outputs.length ∧
    (audioDeviceIOCallback s inputs outputs temp n false u).2.2.2 =
      [PEvent.callbackLock p, PEvent.suspendQuery p,
       PEvent.processBlock p outputs.length n] := by
  have hnlt : ¬ outputs.length < inputs.length := not_lt.mpr hio
  have hch : (remapStep inputs outputs temp n).2.2.length = outputs.length := by
    simp [remapStep, hnlt]
  refine ⟨remap_out_len inputs outputs temp n, ?_, ?_, ?_, hch, ?_⟩
  · intro i hi
    rw [remap_out_getD inputs outputs temp n hin hout i (lt_of_lt_of_le hi hio),
      if_pos hi]
  · intro i hle hi
    rw [remap_out_getD inputs outputs temp n hin hout i hi, if_neg (not_lt.mpr hle)]
  · simp [remapStep, hnlt]
  · simp [audioDeviceIOCallback, hnlt, hp, hch]

/-- Witness for callback_enough_outputs on concrete data: one input,
two outputs, unit 1 installed. -/
theorem callback_enough_outputs_witness :
    (remapStep [[(1:ℚ)]] [[5], [6]] [] 1).1.getD 0 [] = [(1:ℚ)] ∧
    (remapStep [[(1:ℚ)]] [[5], [6]] [] 1).1.getD 1 [] = List.replicate 1 0 ∧
    (audioDeviceIOCallback configuredPlayer [[(1:ℚ)]] [[5], [6]] [] 1 false [[0], [0]]).2.2.2 =
      [PEvent.callbackLock 1, PEvent.suspendQuery 1, PEvent.processBlock 1 2 1] := by
  have h := callback_enough_outputs configuredPlayer 1 [[(1:ℚ)]] [[5], [6]] [] 1 [[0], [0]]
    (by decide) (by decide) (by decide) (by decide)
  exact ⟨h.2.1 0 (by decide), h.2.2.1 1 (by decide) (by decide), h.2.2.2.2.2⟩

/-- C5: when a unit is installed and reports itself suspended, every
real output buffer is zeroed over all numSamples samples, the remap
scratch is exactly what the remap step left (the zeroing does not
touch it), and no processBlock call is made. -/
theorem callback_suspended_silences (s : PlayerState) (p : Nat)
    (inputs outputs temp : List (List ℚ)) (n : Nat) (u : List (List ℚ))
    (hin : ∀ ch ∈ inputs, ch.length = n) (hout : ∀ ch ∈ outputs, ch.length = n)
    (hp : s.processor = some p) :
    (audioDeviceIOCallback s inputs outputs temp n true u).2.1.length = outputs.length ∧
    (∀ i, i < outputs.length →
      (audioDeviceIOCallback s inputs outputs temp n true u).2.1.getD i [] =
        List.replicate n 0) ∧
    (audioDeviceIOCallback s inputs outputs temp n true u).2.2.1 =
      (remapStep inputs outputs temp n).2.1 ∧
    (audioDeviceIOCallback s inputs outputs temp n true u).2.2.2 =
      [PEvent.callbackLock p, PEvent.suspendQuery p] := by
  rw [callback_some_suspended s p inputs outputs temp n u hp]
  refine ⟨by simp [remap_out_len], ?_, rfl, rfl⟩
  intro i hi
  have hlen : i < (remapStep inputs outputs temp n).1.length := by
    rw [remap_out_len]; exact hi
  rw [getD_map_lt _ _ _ _ hlen]
  exact zeroFill_exact _ _ (le_of_eq (remap_out_getD_length inputs outputs temp n hin hout i hi))

/-- Witness for callback_suspended_silences on concrete data. -/
theorem callback_suspended_silences_witness :
    (audioDeviceIOCallback configuredPlayer [[(7:ℚ)]] [[5]] [] 1 true [[0]]).2.1.getD 0 [] =
      List.replicate 1 0 ∧
    (audioDeviceIOCallback configuredPlayer [[(7:ℚ)]] [[5]] [] 1 true [[0]]).2.2.2 =
      [PEvent.callbackLock 1, PEvent.suspendQuery 1] := by
  have h := callback_suspended_silences configuredPlayer 1 [[(7:ℚ)]] [[5]] [] 1 [[0]]
    (by decide) (by decide) (by decide)
  exact ⟨h.2.1 0 (by decide), h.2.2.2⟩

/-- C6: when no unit is installed, the callback leaves the output
buffers exactly as the remap step wrote them (passthrough in the first
min(numIn, numOut) channels, zeros in the remaining output channels),
leaves the temp buffer as the remap step left it, and makes no unit
call at all (no callback lock, no isSuspended query, no
processBlock). -/
theorem callback_no_unit (s : PlayerState)
    (inputs outputs temp : List (List ℚ)) (n : Nat) (susp : Bool) (u : List (List ℚ))
    (hin : ∀ ch ∈ inputs, ch.length = n) (hout : ∀ ch ∈ outputs, ch.length = n)
    (hp : s.processor = none) :
    (audioDeviceIOCallback s inputs outputs temp n susp u).2.1 =
      (remapStep inputs outputs temp n).1 ∧
    (audioDeviceIOCallback s inputs outputs temp n susp u).2.2.1 =
      (remapStep inputs outputs temp n).2.1 ∧
    (audioDeviceIOCallback s inputs outputs temp n susp u).2.2.2 = [] ∧
    (∀ i, i < min inputs.length outputs.length →
      (audioDeviceIOCallback s inputs outputs temp n susp u).2.1.getD i [] =
        inputs.getD i []) ∧
    (∀ i, min inputs.length outputs.length ≤ i → i < outputs.length →
      (audioDeviceIOCallback s inputs outputs temp n susp u).2.1.getD i [] =
        List.replicate n 0) := by
  have hout1 : (audioDeviceIOCallback s inputs outputs temp n susp u).2.1 =
      (remapStep inputs outputs temp n).1 := by
    by_cases hio : outputs.length < inputs.length <;>
      simp [audioDeviceIOCallback, hio, hp]
  have htemp : (audioDeviceIOCallback s inputs outputs temp n susp u).2.2.1 =
      (remapStep inputs outputs temp n).2.1 := by
    by_cases hio : outputs.length < inputs.length <;>
      simp [audioDeviceIOCallback, hio, hp]
  have hev : (audioDeviceIOCallback s inputs outputs temp n susp u).2.2.2 = [] := by
    by_cases hio : outputs.length < inputs.length <;>
      simp [audioDeviceIOCallback, hio, hp]
  refine ⟨hout1, htemp, hev, ?_, ?_⟩
  · intro i hi
    rw [hout1, remap_out_getD inputs outputs temp n hin hout i (by omega),
      if_pos (by omega)]
  · intro i hmin hi
    rw [hout1, remap_out_getD inputs outputs temp n hin hout i hi, if_neg (by omega)]

/-- Witness for callback_no_unit on concrete data: no unit, no input,
two outputs fall to silence. -/
theorem callback_no_unit_witness :
    (audioDeviceIOCallback initialState [] [[5], [6]] [] 1 false []).2.2.2 = [] ∧
    (audioDeviceIOCallback initialState [] [[5], [6]] [] 1 false []).2.1.getD 0 [] =
      List.replicate 1 0 ∧
    (audioDeviceIOCallback initialState [] [[5], [6]] [] 1 false []).2.1.getD 1 [] =
      List.replicate 1 0 := by
  have h := callback_no_unit initialState [] [[5], [6]] [] 1 false []
    (by decide) (by decide) (by decide)
  exact ⟨h.2.2.1, h.2.2.2.2 0 (by decide) (by decide), h.2.2.2.2 1 (by decide) (by decide)⟩

/-- C7, counterexample: after audioDeviceStopped the configuration is
reset to zero, yet a subsequent callback still runs the block: with
unit 1 still installed (stop does not clear the slot), processBlock is
invoked.  The player does not treat sampleRate == 0 as not ready; it
only asserts. -/
theorem stopped_callback_still_processes :
    stoppedPlayer.sampleRate = 0 ∧ stoppedPlayer.blockSize = 0 ∧
    stoppedPlayer.processor = some 1 ∧
    (audioDeviceIOCallback stoppedPlayer [[0]] [[0]] [] 1 false [[0]]).2.2.2 =
      [PEvent.callbackLock 1, PEvent.suspendQuery 1, PEvent.processBlock 1 1 1] := by
  decide

/-- C7, amended: after audioDeviceStopped and before reconfiguration
the state fails the readiness precondition (sampleRate > 0 and
blockSize > 0) that the callback asserts, so the misconfiguration is
detectable; the callback itself is not gated on it: it does not read
the stale sampleRate/blockSize, and a still-installed unit's
processBlock is invoked on the block. -/
theorem stopped_fails_callback_precondition (s : PlayerState) (p : Nat)
    (inputs outputs temp : List (List ℚ)) (n : Nat) (u : List (List ℚ))
    (hp : (audioDeviceStopped s).1.processor = some p) :
    ¬ callbackReady (audioDeviceStopped s).1 ∧
    PEvent.processBlock p (remapStep inputs outputs temp n).2.2.length n ∈
      (audioDeviceIOCallback (audioDeviceStopped s).1 inputs outputs temp n false u).2.2.2 := by
  constructor
  · intro hready
    have h0 : (audioDeviceStopped s).1.sampleRate = 0 := by
      simp [audioDeviceStopped]
    rw [callbackReady, h0] at hready
    exact absurd hready.1 (lt_irrefl 0)
  · by_cases hio : outputs.length < inputs.length <;>
      simp [audioDeviceIOCallback, hio, hp]

/-- Witness for stopped_fails_callback_precondition at a concrete
reachable stopped state. -/
theorem stopped_fails_callback_precondition_witness :
    ¬ callbackReady stoppedPlayer ∧
    PEvent.processBlock 1 1 1 ∈
      (audioDeviceIOCallback stoppedPlayer [[0]] [[0]] [] 1 false [[0]]).2.2.2 := by
  have h := stopped_fails_callback_precondition configuredPlayer 1 [[0]] [[0]] [] 1 [[0]]
    (by decide)
  exact ⟨h.1, h.2⟩

@[simp] theorem prepStep_setPlayConfig (p q : Nat) (k : Nat) (nin nout : Int) (sr : ℚ)
    (bs : Int) (l : Bool) :
    prepStep p k (PEvent.setPlayConfig q nin nout sr bs l) = k := rfl

@[simp] theorem prepStep_prepare (p q : Nat) (k : Nat) (sr : ℚ) (bs : Int) (l : Bool) :
    prepStep p k (PEvent.prepare q sr bs l) = if q = p then k + 1 else k := rfl

@[simp] theorem prepStep_release (p q : Nat) (k : Nat) (l : Bool) :
    prepStep p k (PEvent.release q l) = if q = p then 0 else k := rfl

@[simp] theorem prepStep_callbackLock (p q : Nat) (k : Nat) :
    prepStep p k (PEvent.callbackLock q) = k := rfl

@[simp] theorem prepStep_suspendQuery (p q : Nat) (k : Nat) :
    prepStep p k (PEvent.suspendQuery q) = k := rfl

@[simp] theorem prepStep_processBlock (p q : Nat) (k nc ns : Nat) :
    prepStep p k (PEvent.processBlock q nc ns) = k := rfl

/-- setProcessor preserves the trace invariant. -/
theorem inv_setProcessor (s : PlayerState) (tr : List PEvent) (q? : Option Nat)
    (h : Inv s tr) : Inv (setProcessor s q?).1 (tr ++ (setProcessor s q?).2) := by
  intro q
  rw [foldl_append_psr, h q]
  obtain ⟨proc, sr, bs, prep, nin, nout, tc, ts, cl⟩ := s
  rcases proc with _ | r <;> rcases q? with _ | p <;> cases prep <;>
    by_cases h1 : 0 < sr <;> by_cases h2 : 0 < bs <;>
      simp_all [setProcessor, setProcessorL, goodCount] <;>
      (try split_ifs) <;> (try simp_all) <;> (try omega) <;> (try linarith)

/-- prepareToPlay preserves the trace invariant. -/
theorem inv_configure (s : PlayerState) (tr : List PEvent) (sr : ℚ) (bs nin nout : Int)
    (h : Inv s tr) :
    Inv (prepareToPlay s sr bs nin nout).1 (tr ++ (prepareToPlay s sr bs nin nout).2) := by
  intro q
  rw [foldl_append_psr, h q]
  rcases hO : s.processor with _ | p
  · rw [prepareToPlay_none s sr bs nin nout hO]
    simp [goodCount, hO]
  · rw [prepareToPlay_some s p sr bs nin nout hO]
    by_cases hprep : s.isPrepared = true <;> by_cases hc : 0 < sr ∧ 0 < bs <;>
      by_cases hpq : p = q <;>
        simp_all [goodCount, prepStep] <;> split_ifs <;> simp_all <;> omega

/-- audioDeviceStopped preserves the trace invariant. -/
theorem inv_stop (s : PlayerState) (tr : List PEvent) (h : Inv s tr) :
    Inv (audioDeviceStopped s).1 (tr ++ (audioDeviceStopped s).2) := by
  intro q
  rw [foldl_append_psr, h q]
  obtain ⟨proc, sr, bs, prep, nin, nout, tc, ts, cl⟩ := s
  rcases proc with _ | r <;> cases prep <;>
    simp_all [audioDeviceStopped, goodCount, prepStep] <;> split_ifs <;> simp_all

/-- audioDeviceIOCallback preserves the trace invariant: it emits no
lifecycle event and does not change the slot, the prepared flag or the
configuration. -/
theorem inv_callback (s : PlayerState) (tr : List PEvent)
    (inputs outputs temp : List (List ℚ)) (n : Nat) (susp : Bool) (u : List (List ℚ))
    (h : Inv s tr) :
    Inv (audioDeviceIOCallback s inputs outputs temp n susp u).1
      (tr ++ (audioDeviceIOCallback s inputs outputs temp n susp u).2.2.2) := by
  intro q
  rw [foldl_append_psr, h q]
  by_cases hio : outputs.length < inputs.length <;>
    rcases hO : s.processor with _ | p <;>
      cases susp <;>
        simp [audioDeviceIOCallback, hio, hO, goodCount, prepStep]

/-- Every reachable state satisfies the trace invariant. -/
theorem inv_runOps (ops : List Op) : Inv (runOps ops).1 (runOps ops).2 := by
  induction ops with
  | nil =>
      intro q
      simp [runOps, initialState, prepSinceRelease, goodCount]
  | cons op rest ih =>
      cases op with
      | install q? => simpa [runOps, stepOp] using inv_setProcessor _ _ q? ih
      | configure sr bs nin nout =>
          simpa [runOps, stepOp] using inv_configure _ _ sr bs nin nout ih
      | stop => simpa [runOps, stepOp] using inv_stop _ _ ih
      | callback inputs outputs temp n susp u =>
          simpa [runOps, stepOp] using inv_callback _ _ inputs outputs temp n susp u ih

/-- C2, counterexample: installing a unit on an unconfigured player
(sample rate still 0) marks the player prepared without ever issuing a
prepare call: the slot is non-empty, the prepared flag is true, yet
the whole trace is empty, so the unit has received zero prepare calls
since installation, not one. -/
theorem install_unconfigured_no_prepare :
    (runOps [Op.install (some 1)]).1.processor = some 1 ∧
    (runOps [Op.install (some 1)]).1.isPrepared = true ∧
    (runOps [Op.install (some 1)]).2 = [] := by decide

/-- C2, amended: in every reachable state whose slot is non-empty,
whose prepared flag is true and whose configuration is valid
(sampleRate > 0 and blockSize > 0), the installed unit has received
exactly one prepare call since its most recent releaseResources call
(or since the beginning if it was never released). -/
theorem installed_prepared_one_prepare (ops : List Op) (p : Nat)
    (h1 : (runOps ops).1.processor = some p)
    (h2 : (runOps ops).1.isPrepared = true)
    (h3 : 0 < (runOps ops).1.sampleRate)
    (h4 : 0 < (runOps ops).1.blockSize) :
    prepSinceRelease p (runOps ops).2 = 1 := by
  rw [inv_runOps ops p]
  unfold goodCount
  rw [if_pos ⟨h1, h2, h3, h4⟩]

/-- Witness for installed_prepared_one_prepare at a concrete reachable
state. -/
theorem installed_prepared_one_prepare_witness :
    prepSinceRelease 1 (runOps [Op.install (some 1), Op.configure 1 1 1 1]).2 = 1 :=
  installed_prepared_one_prepare [Op.install (some 1), Op.configure 1 1 1 1] 1
    (by decide) (by decide) (by decide) (by decide)

end JucePlayer
